import Mathlib

/-!
# Verification of the authenticated MCP server's trend engine and auth gate

This file gives a shallow embedding, in Lean 4, of the two core pieces of the
TypeScript scaffold under `typescript-authenticated-mcp-server-scaffold/src`:

* `trends.ts` — dataset loading (`loadTrendDataset`), row normalization
  (`buildRow`), and the filter/sort/paginate query engine
  (`queryAirfareTrends`);
* `auth.ts` — bearer-token scope enforcement (`extractScopes`,
  `ensureRequiredScopes`, `verifyBearerToken`, `authenticateRequest`).

Modelling conventions:

* JavaScript strings are Lean `String`s; string primitives (`trim`,
  `toLowerCase`, `includes`, `split`, `startsWith`, `slice`) are re-implemented
  below over `List Char`, using code-point comparisons.  `localeCompare` is
  modelled as code-point lexicographic comparison (the host's default-locale
  collation is outside the embedding).
* JavaScript `Date` values are modelled as an `Int` of milliseconds since the
  Unix epoch, with the proleptic-Gregorian civil-day arithmetic that
  `Date.UTC`/`setUTCDate` perform (including month/day rollover).
  The free-form `new Date(string)` fallback parser of the host is an explicit
  function parameter `fb : String → Option Int` (`none` = invalid date).
* JavaScript numbers arising from `Number.parseFloat` are modelled as exact
  rationals (`Rat`); `Number.parseInt` as `Int`.  No claim depends on
  double-precision rounding.
* Raw vendor records are association lists `List (String × String)`;
  a missing key models both JS `undefined` and `null` (the code treats the
  two identically in every reachable spot), and JSON scalars are modelled by
  their string form, which is how `buildRow` consumes them (`String(...)`).
* File I/O is abstracted: a directory is a list of named entries, each
  carrying the outcome (`Except`) that `loadTrendRowsFromFile` would produce
  for it — the parsers themselves wrap the external `csv-parse` and
  `JSON.parse` libraries.
-/

/-! ## JavaScript string primitives -/

/-- Whitespace as stripped by `String.prototype.trim` (ASCII subset used by
the data formats at hand). -/
def isWsChar (c : Char) : Bool :=
  c = ' ' || c = '\t' || c = '\n' || c = '\r'

/-- `trim` on a character list: drop whitespace at both ends. -/
def trimList (l : List Char) : List Char :=
  ((l.dropWhile isWsChar).reverse.dropWhile isWsChar).reverse

/-- JS `String.prototype.trim`. -/
def jsTrim (s : String) : String :=
  String.mk (trimList s.data)

/-- JS `String.prototype.toLowerCase` (ASCII model). -/
def jsToLower (s : String) : String :=
  String.mk (s.data.map Char.toLower)

/-- Substring test on character lists (`hay.includes(needle)`). -/
def inclList (needle hay : List Char) : Bool :=
  hay.tails.any (fun t => needle.isPrefixOf t)

/-- JS `hay.includes(needle)`. -/
def jsIncludes (hay needle : String) : Bool :=
  inclList needle.data hay.data

/-- JS `a || b` on strings: `b` when `a` is empty (falsy), else `a`. -/
def jsOr (a b : String) : String :=
  if a = "" then b else a

/-- Numeric value of a list of ASCII digit characters, most significant
first. -/
def digitsToInt (l : List Char) : Int :=
  l.foldl (fun acc c => acc * 10 + ((c.toNat : Int) - 48)) 0

/-! ## JavaScript UTC date arithmetic

`Date.UTC(year, monthIndex, day)` normalizes an arbitrary (possibly
out-of-range) 0-based month index and day-of-month by rollover.  We model the
result as a signed count of civil days since 1970-01-01, using the standard
proleptic-Gregorian days-from-civil algorithm, then scale to milliseconds. -/

/-- Days since 1970-01-01 of the civil date `y-m-d` with `m ∈ [1,12]`
(day `d` may be out of range; it simply offsets from the first of the
month). -/
def daysFromCivil (y m d : Int) : Int :=
  let y' := if m ≤ 2 then y - 1 else y
  let era := Int.fdiv y' 400
  let yoe := y' - era * 400
  let mp := Int.emod (m + 9) 12
  let doy := (153 * mp + 2) / 5 + d - 1
  let doe := yoe * 365 + yoe / 4 - yoe / 100 + doy
  era * 146097 + doe - 719468

/-- ECMAScript `MakeFullYear`: an integer year argument between 0 and 99
denotes 1900–1999 (the two-digit-year legacy rule `Date.UTC` applies before
any month rollover). -/
def makeFullYear (y : Int) : Int :=
  if 0 ≤ y ∧ y ≤ 99 then 1900 + y else y

/-- `Date.UTC(y, m0, d)` as a day count: the year argument goes through
`MakeFullYear`, the 0-based month index `m0` is normalized by rollover into
the year, and `d` is the (1-based, but arbitrary) day of month. -/
def jsDateUTCDay (y m0 d : Int) : Int :=
  daysFromCivil (makeFullYear y + Int.fdiv m0 12) (Int.emod m0 12 + 1) 1
    + (d - 1)

/-- Milliseconds per civil day. -/
def msPerDay : Int := 86400000

/-- `getUTCDay` of a midnight date given as a day count: 0 = Sunday
(1970-01-01 was a Thursday, weekday 4). -/
def weekdayOfDay (day : Int) : Int :=
  Int.emod (day + 4) 7

/-! ## `parseIsoDate` (trends.ts lines 44–79) -/

/-- The anchored exact-date regex of `parseIsoDate`: four digits, a `-` or
`/` separator, two digits, another `-` or `/` separator, two digits; returns
the captured year, month and day numbers. -/
def exactRe (l : List Char) : Option (Int × Int × Int) :=
  match l with
  | [y1, y2, y3, y4, s1, m1, m2, s2, d1, d2] =>
    if (y1.isDigit && y2.isDigit && y3.isDigit && y4.isDigit
        && (s1 = '-' || s1 = '/') && m1.isDigit && m2.isDigit
        && (s2 = '-' || s2 = '/') && d1.isDigit && d2.isDigit : Bool)
    then some (digitsToInt [y1, y2, y3, y4], digitsToInt [m1, m2],
               digitsToInt [d1, d2])
    else none
  | _ => none

/-- The anchored regex `^(\d{4})-W(\d{2})$` (case-insensitive `W`) applied to
a character list; returns the captured year and week numbers. -/
def weekRe (l : List Char) : Option (Int × Int) :=
  match l with
  | [y1, y2, y3, y4, s, w, w1, w2] =>
    if (y1.isDigit && y2.isDigit && y3.isDigit && y4.isDigit
        && s = '-' && (w = 'W' || w = 'w') && w1.isDigit && w2.isDigit : Bool)
    then some (digitsToInt [y1, y2, y3, y4], digitsToInt [w1, w2])
    else none
  | _ => none

/-- Day count of January 4 of year `y` (`new Date(Date.UTC(year, 0, 4))`). -/
def jan4Day (y : Int) : Int := jsDateUTCDay y 0 4

/-- `jan4.getUTCDay() || 7`: weekday of January 4 with Sunday mapped to 7. -/
def jan4Weekday (y : Int) : Int :=
  let x := weekdayOfDay (jan4Day y)
  if x = 0 then 7 else x

/-- The Jan-4-anchored week→Monday formula of the week branch of
`parseIsoDate`, in milliseconds:
`jan4 + (1 - jan4Weekday) + (week - 1) * 7` days. -/
def isoWeekMondayMs (year week : Int) : Int :=
  (jan4Day year + (1 - jan4Weekday year) + (week - 1) * 7) * msPerDay

/-- `parseIsoDate` (trends.ts lines 44–79).  `fb` is the host's free-form
`new Date(string)` parser used by the final fallback branch; the result is a
millisecond timestamp.  The `Number.isNaN` guards of the first two branches
are omitted: with 4-digit years `Date.UTC` and `Number.parseInt` cannot
produce `NaN` there. -/
def parseIsoDate (fb : String → Option Int) (value : Option String) :
    Option Int :=
  match value with
  | none => none
  | some s =>
    if s = "" then none
    else
      let trimmed := jsTrim s
      if trimmed = "" then none
      else
        match exactRe trimmed.data with
        | some (year, month, day) =>
          some (jsDateUTCDay year (month - 1) day * msPerDay)
        | none =>
          match weekRe trimmed.data with
          | some (year, week) => some (isoWeekMondayMs year week)
          | none => fb trimmed

/-! ## Numeric coercions (trends.ts lines 28–42) -/

/-- Longest leading run of ASCII digits together with the rest. -/
def splitDigits (l : List Char) : List Char × List Char :=
  (l.takeWhile Char.isDigit, l.dropWhile Char.isDigit)

/-- `Number.parseInt(s, 10)`: strip leading whitespace, optional sign,
longest digit run; `none` models `NaN` (no digits). -/
def jsParseInt (s : String) : Option Int :=
  let l := s.data.dropWhile isWsChar
  let (sgn, l1) : Int × List Char :=
    match l with
    | '-' :: r => (-1, r)
    | '+' :: r => (1, r)
    | _ => (1, l)
  let ds := (splitDigits l1).1
  if ds = [] then none else some (sgn * digitsToInt ds)

/-- `Number.parseFloat(s)` restricted to finite outcomes, as an exact
rational: strip leading whitespace and an optional sign, reject an
`Infinity` literal (non-finite), then read the longest decimal literal
`digits [. digits] [e [sign] digits]`; `none` models `NaN`/`Infinity`. -/
def jsParseFloatFinite (s : String) : Option Rat :=
  let l := s.data.dropWhile isWsChar
  let (sgn, l1) : Rat × List Char :=
    match l with
    | '-' :: r => (-1, r)
    | '+' :: r => (1, r)
    | _ => (1, l)
  if "Infinity".data.isPrefixOf l1 then none
  else
    let (ip, l2) := splitDigits l1
    let (fp, l3) :=
      match l2 with
      | '.' :: r => splitDigits r
      | _ => ([], l2)
    if ip = [] ∧ fp = [] then none
    else
      let mant : Rat :=
        (digitsToInt ip : Rat) + (digitsToInt fp : Rat) / ((10 : Rat) ^ fp.length)
      let expVal : Int :=
        match l3 with
        | 'e' :: r | 'E' :: r =>
          let (esgn, r1) : Int × List Char :=
            match r with
            | '-' :: r2 => (-1, r2)
            | '+' :: r2 => (1, r2)
            | _ => (1, r)
          let eds := (splitDigits r1).1
          if eds = [] then 0 else esgn * digitsToInt eds
        | _ => 0
      some (sgn * mant * (10 : Rat) ^ expVal)

/-- `coerceFloat` (trends.ts lines 28–34): `undefined`/`null`/`''` and
non-finite parses are `none`. -/
def coerceFloat (value : Option String) : Option Rat :=
  match value with
  | none => none
  | some s => if s = "" then none else jsParseFloatFinite s

/-- `coerceInt` (trends.ts lines 36–42). -/
def coerceInt (value : Option String) : Option Int :=
  match value with
  | none => none
  | some s => if s = "" then none else jsParseInt s

/-! ## Raw records and canonical rows -/

/-- A raw vendor record: an association list from field name to string
value.  A missing key models JS `undefined`/`null`; JSON scalar values are
modelled by their string form (which is how `buildRow` consumes them). -/
def RawRecord := List (String × String)

/-- `raw[k]` on a raw record. -/
def jsGet (raw : RawRecord) (k : String) : Option String :=
  (List.find? (fun p => p.1 = k) raw).map (fun p => p.2)

/-- A JS `??` chain over several keys: the value of the first key that is
present, regardless of emptiness. -/
def jsCoalesce (raw : RawRecord) : List String → Option String
  | [] => none
  | k :: ks =>
    match jsGet raw k with
    | some v => some v
    | none => jsCoalesce raw ks

/-- `String(raw[k1] ?? … ?? kn ?? '').trim()`. -/
def chainTrim (raw : RawRecord) (keys : List String) : String :=
  jsTrim ((jsCoalesce raw keys).getD "")

/-- The canonical row shape produced by `buildRow` (trends.ts lines 81–196).
Fields set conditionally in the TypeScript record are `Option`s here. -/
structure TrendRow where
  query : String
  date : String
  snapshot_date : String
  region : String
  search_index : Option Int
  branding_mix : Option Rat
  notable_event : String
  source_file : String
  source_format : String
  linked_tickers : Option String
  provider : Option String
  collection_window : Option String
  query_count : Option String
  week_id : Option String
  route : Option String
  origin_airport : Option String
  destination_airport : Option String
  airline : Option String
  season : Option String
  avg_fare_usd : Option Rat
  premium_fare_usd : Option Rat
  fare_yoy_pct : Option Rat
  advance_purchase_days : Option Int
  load_factor_pct : Option Rat
  ancillary_revenue_pct : Option Rat
  notable_driver : Option String
deriving DecidableEq, Repr

/-- `route.split('-', 2)`, first segment: everything before the first `-`. -/
def firstDashSeg (l : List Char) : List Char :=
  l.takeWhile (fun c => c ≠ '-')

/-- `route.split('-', 2)`, second segment: everything strictly between the
first and second `-` (to the end when there is no second `-`). -/
def secondDashSeg (l : List Char) : List Char :=
  ((l.dropWhile (fun c => c ≠ '-')).drop 1).takeWhile (fun c => c ≠ '-')

/-- Copy a vendor passthrough value when present and non-empty
(trends.ts lines 135–140). -/
def optionalCopy (raw : RawRecord) (k : String) : Option String :=
  match jsGet raw k with
  | none => none
  | some v => if v = "" then none else some v

/-- `buildRow` (trends.ts lines 81–196). -/
def buildRow (raw : RawRecord) (sourceFile sourceFormat : String) : TrendRow :=
  let query0 := chainTrim raw ["query", "keyword", "term", "search_term"]
  let snapshotDateValue := chainTrim raw ["snapshot_date"]
  let dateValue :=
    jsOr snapshotDateValue (chainTrim raw ["date", "week", "week_id", "period"])
  let region := chainTrim raw ["region", "region_name", "geo"]
  let searchIndex := coerceInt (jsCoalesce raw ["search_index", "index", "score"])
  let brandingMix :=
    coerceFloat (jsCoalesce raw
      ["branding_mix", "mix_share", "implied_unit_sales_impact", "metric"])
  let notableEvent := chainTrim raw
    ["notable_driver", "notable_event", "notes", "channel_checks",
     "processing_notes"]
  let route := chainTrim raw ["route"]
  let airline := chainTrim raw ["airline"]
  let season := chainTrim raw ["season"]
  let query :=
    if query0 = "" then
      let q1 :=
        if route ≠ "" ∨ airline ≠ "" then
          jsTrim (String.intercalate " "
            (([route, airline, season]).filter (fun x => x ≠ "")))
        else query0
      if q1 = "" then chainTrim raw ["provider", "category", "topic"] else q1
    else query0
  let origin := jsTrim (String.mk (firstDashSeg route.data))
  let destination := jsTrim (String.mk (secondDashSeg route.data))
  let hasDash := route ≠ "" ∧ jsIncludes route "-"
  let notableDriver := chainTrim raw ["notable_driver"]
  { query := jsOr query sourceFile
    date := dateValue
    snapshot_date := jsOr snapshotDateValue dateValue
    region := region
    search_index := searchIndex
    branding_mix := brandingMix
    notable_event := if notableDriver = "" then notableEvent else notableDriver
    source_file := sourceFile
    source_format := sourceFormat
    linked_tickers := optionalCopy raw "linked_tickers"
    provider := optionalCopy raw "provider"
    collection_window := optionalCopy raw "collection_window"
    query_count := optionalCopy raw "query_count"
    week_id := optionalCopy raw "week_id"
    route := if route = "" then none else some route
    origin_airport := if hasDash ∧ origin ≠ "" then some origin else none
    destination_airport :=
      if hasDash ∧ destination ≠ "" then some destination else none
    airline := if airline = "" then none else some airline
    season := if season = "" then none else some season
    avg_fare_usd := coerceFloat (jsGet raw "avg_fare_usd")
    premium_fare_usd := coerceFloat (jsGet raw "premium_fare_usd")
    fare_yoy_pct := coerceFloat (jsGet raw "fare_yoy_pct")
    advance_purchase_days := coerceInt (jsGet raw "advance_purchase_days")
    load_factor_pct := coerceFloat (jsGet raw "load_factor_pct")
    ancillary_revenue_pct := coerceFloat (jsGet raw "ancillary_revenue_pct")
    notable_driver := if notableDriver = "" then none else some notableDriver }

/-! ## Code-point lexicographic comparison (model of `localeCompare`) -/

/-- Three-way code-point comparison of characters. -/
def chCmp (x y : Char) : Ordering :=
  if x < y then .lt else if y < x then .gt else .eq

/-- Three-way code-point comparison of character lists; the sign model of
`a.localeCompare(b)`. -/
def lexCmpCh : List Char → List Char → Ordering
  | [], [] => .eq
  | [], _ :: _ => .lt
  | _ :: _, [] => .gt
  | a :: as, b :: bs =>
    match chCmp a b with
    | .eq => lexCmpCh as bs
    | o => o

/-- Three-way comparison of strings via code points. -/
def strCmp (a b : String) : Ordering :=
  lexCmpCh a.data b.data

/-! ## `loadTrendDataset` (trends.ts lines 290–336)

File I/O and the external `csv-parse`/`JSON.parse` passes are abstracted: a
directory entry records the outcome that `loadTrendRowsFromFile` produces for
that file — either a list of canonical rows or a thrown error (its message).
`loadTrendDataset` itself (discovery, suffix filtering, name sort, per-file
try/catch, aggregation) is modelled faithfully below. -/

/-- One entry of the scanned directory. -/
structure DirEntry where
  /-- File name (`basename`); directory entries have no path separator. -/
  name : String
  /-- `dirent.isFile()`. -/
  isFile : Bool
  /-- Outcome of `loadTrendRowsFromFile` on this file: rows, or the thrown
  parse error. -/
  parseResult : Except String (List TrendRow)

/-- `path.extname` on a bare file name: the suffix from the last `.`, except
that a dot-initial name (hidden file) has no extension. -/
def extname (name : String) : String :=
  let l := name.data
  let pre := l.reverse.takeWhile (fun c => c ≠ '.')
  if pre.length = l.length then ""
  else if pre.length = l.length - 1 then ""
  else String.mk ('.' :: pre.reverse)

/-- `SUPPORTED_SUFFIXES[extname(p).toLowerCase()]` (trends.ts lines 18–22). -/
def suffixOf (name : String) : Option String :=
  let ext := jsToLower (extname name)
  if ext = ".csv" then some "csv"
  else if ext = ".tsv" then some "tsv"
  else if ext = ".json" then some "json"
  else none

/-- The comparator of `entries.sort((a, b) => basename(a).localeCompare(basename(b)))`
as a Boolean `le` for a stable merge sort. -/
def entryLe (a b : DirEntry) : Bool :=
  strCmp a.name b.name ≠ .gt

/-- The supported regular files of a directory, sorted by name. -/
def supportedEntriesSorted (dir : List DirEntry) : List DirEntry :=
  List.mergeSort
    (dir.filter (fun e => e.isFile && (suffixOf e.name).isSome))
    entryLe

/-- The rows a single entry contributes: its parsed rows, or nothing when its
parse threw (the error is logged and swallowed). -/
def okRowsOf (e : DirEntry) : List TrendRow :=
  match e.parseResult with
  | .ok rs => rs
  | .error _ => []

/-- Result shape of `loadTrendDataset`. -/
structure LoadResult where
  rows : List TrendRow
  availableFiles : List String
deriving DecidableEq

/-- `loadTrendDataset` (trends.ts lines 300–336).  An unreadable directory is
modelled by the empty entry list (both yield the empty result). -/
def loadTrendDataset (dir : List DirEntry) : LoadResult :=
  let entries := supportedEntriesSorted dir
  { rows := entries.flatMap okRowsOf
    availableFiles := entries.map (fun e => e.name) }

/-! ## Filters and the query engine (trends.ts lines 7–16, 373–488) -/

/-- `AirfareTrendFilters` (trends.ts lines 7–16); `none` models an absent or
`null` field. -/
structure AirfareTrendFilters where
  snapshotDate : Option String := none
  routeContains : Option String := none
  originAirport : Option String := none
  destinationAirport : Option String := none
  airlineContains : Option String := none
  seasonContains : Option String := none
  notableContains : Option String := none
  limit : Option Int := none
deriving DecidableEq, Repr

/-- `(filters.x ?? '').trim().toLowerCase()`. -/
def normFilter (v : Option String) : String :=
  jsToLower (jsTrim (v.getD ""))

/-- The snapshot-date component of the row predicate: with a parsable filter
date, the row's parsed `snapshot_date` must equal it exactly; otherwise no
restriction. -/
def snapshotPass (fb : String → Option Int) (f : AirfareTrendFilters)
    (row : TrendRow) : Bool :=
  match parseIsoDate fb f.snapshotDate with
  | none => true
  | some filterIso =>
    match parseIsoDate fb (some row.snapshot_date) with
    | none => false
    | some rowIso => rowIso = filterIso

/-- The row predicate of `queryAirfareTrends` (trends.ts lines 398–447),
with the filter normalizations of lines 388–396 applied inline. -/
def rowMatches (fb : String → Option Int) (f : AirfareTrendFilters)
    (row : TrendRow) : Bool :=
  let routeFilter := normFilter f.routeContains
  let originFilter := normFilter f.originAirport
  let destinationFilter := normFilter f.destinationAirport
  let airlineFilter := normFilter f.airlineContains
  let seasonFilter := normFilter f.seasonContains
  let notableFilter := normFilter f.notableContains
  snapshotPass fb f row
    && (routeFilter = ""
        || jsIncludes (jsToLower (row.route.getD row.query)) routeFilter)
    && (originFilter = ""
        || jsToLower (row.origin_airport.getD "") = originFilter)
    && (destinationFilter = ""
        || jsToLower (row.destination_airport.getD "") = destinationFilter)
    && (airlineFilter = ""
        || jsIncludes (jsToLower (row.airline.getD "")) airlineFilter)
    && (seasonFilter = ""
        || jsIncludes (jsToLower (row.season.getD "")) seasonFilter)
    && (notableFilter = ""
        || jsIncludes (jsToLower row.notable_event) notableFilter)

/-- The parsed snapshot date of a row, the primary sort key
(`-Infinity`, i.e. `none`, when unparsable). -/
def snapKey (fb : String → Option Int) (row : TrendRow) : Option Int :=
  parseIsoDate fb (some row.snapshot_date)

/-- `String(row['route'] ?? row['query'] ?? '')`, the secondary sort key. -/
def routeOrQuery (row : TrendRow) : String :=
  row.route.getD row.query

/-- `String(row['airline'] ?? '')`, the tertiary sort key. -/
def airlineKey (row : TrendRow) : String :=
  row.airline.getD ""

/-- Three-way comparison on `Int` (the sign model of `b - a` / `a - b`). -/
def intCmp (a b : Int) : Ordering :=
  if a < b then .lt else if b < a then .gt else .eq

/-- Primary key comparison: parsed snapshot date descending, with an
unparsable date (`none`, the code's `-Infinity`) after every parsed date. -/
def dateCmpDesc : Option Int → Option Int → Ordering
  | none, none => .eq
  | none, some _ => .gt
  | some _, none => .lt
  | some a, some b => intCmp b a

/-- The sort comparator of `queryAirfareTrends` (trends.ts lines 451–465):
parsed snapshot date descending (`-Infinity` for unparsable), then
route-or-query, then airline; each later key consulted only on a tie. -/
def rowCmp (fb : String → Option Int) (a b : TrendRow) : Ordering :=
  (dateCmpDesc (snapKey fb a) (snapKey fb b)).then
    ((strCmp (routeOrQuery a) (routeOrQuery b)).then
      (strCmp (airlineKey a) (airlineKey b)))

/-- The comparator as a Boolean `le` for the stable merge sort (a JS stable
sort keeps `a` before `b` exactly when the comparator is non-positive). -/
def rowLe (fb : String → Option Int) (a b : TrendRow) : Bool :=
  rowCmp fb a b ≠ .gt

/-- `DEFAULT_LIMIT` (trends.ts line 25). -/
def DEFAULT_LIMIT : Int := 25

/-- `MAX_LIMIT` (trends.ts line 26). -/
def MAX_LIMIT : Int := 200

/-- `Math.min(Math.max(filters.limit ?? DEFAULT_LIMIT, 1), MAX_LIMIT)`
(trends.ts line 467). -/
def effectiveLimit (f : AirfareTrendFilters) : Int :=
  min (max (f.limit.getD DEFAULT_LIMIT) 1) MAX_LIMIT

/-- The filtered row set (before sorting). -/
def matchedRows (fb : String → Option Int) (dir : List DirEntry)
    (f : AirfareTrendFilters) : List TrendRow :=
  (loadTrendDataset dir).rows.filter (rowMatches fb f)

/-- The filtered row set after the stable sort. -/
def sortedMatchedRows (fb : String → Option Int) (dir : List DirEntry)
    (f : AirfareTrendFilters) : List TrendRow :=
  List.mergeSort (matchedRows fb dir f) (rowLe fb)

/-- The snake_case filter echo of the non-empty result branch
(trends.ts lines 473–482): the caller's values null-coalesced, plus the
clamped limit. -/
structure NormalizedFilters where
  snapshot_date : Option String
  route_contains : Option String
  origin_airport : Option String
  destination_airport : Option String
  airline_contains : Option String
  season_contains : Option String
  notable_contains : Option String
  limit : Int
deriving DecidableEq, Repr

/-- Build the snake_case echo from the caller's criteria. -/
def normalizedEcho (f : AirfareTrendFilters) : NormalizedFilters :=
  { snapshot_date := f.snapshotDate
    route_contains := f.routeContains
    origin_airport := f.originAirport
    destination_airport := f.destinationAirport
    airline_contains := f.airlineContains
    season_contains := f.seasonContains
    notable_contains := f.notableContains
    limit := effectiveLimit f }

/-- The two filter-echo shapes `queryAirfareTrends` can return: the raw
`filters` object (zero-row early return, line 380) or the snake_case
normalized object (line 473). -/
inductive FiltersEcho where
  | raw (f : AirfareTrendFilters)
  | normalized (n : NormalizedFilters)
deriving DecidableEq, Repr

/-- Result envelope of `queryAirfareTrends`.  `trend_data_dir` (an absolute
filesystem path) is outside the embedding. -/
structure QueryResult where
  rows : List TrendRow
  available_files : List String
  filters : FiltersEcho
  total_rows : Nat
  matched_rows : Nat
  rows_returned : Nat
deriving DecidableEq

/-- `queryAirfareTrends` (trends.ts lines 373–488). -/
def queryAirfareTrends (fb : String → Option Int) (dir : List DirEntry)
    (f : AirfareTrendFilters) : QueryResult :=
  let ld := loadTrendDataset dir
  if ld.rows.isEmpty then
    { rows := []
      available_files := ld.availableFiles
      filters := .raw f
      total_rows := 0
      matched_rows := 0
      rows_returned := 0 }
  else
    let sortedRows := sortedMatchedRows fb dir f
    let limit := effectiveLimit f
    let limitedRows := sortedRows.take limit.toNat
    { rows := limitedRows
      available_files := ld.availableFiles
      filters := .normalized (normalizedEcho f)
      total_rows := ld.rows.length
      matched_rows := sortedRows.length
      rows_returned := limitedRows.length }

/-! ## Bearer-token verification (auth.ts)

The external `jose` library call `jwtVerify(token, jwks, {issuer, audience})`
— signature, issuer, audience and temporal validation against the remote JWKS
— is abstracted as a parameter `jv : String → Except String JWTPayload`
(`Except.error` = a `jose` rejection, which is not an `AuthorizationError`).
Likewise `new URL(value)` is abstracted as `urlOk : String → Option String`.
Everything in `auth.ts` itself is modelled faithfully. -/

/-- A minimal model of the JS values a JWT claim can hold: a string, a
number, an array, or anything else (object, boolean, `null` inside an
array, ...). -/
inductive JsVal where
  | str (s : String)
  | num (n : Int)
  | arr (l : List JsVal)
  | other

/-- The JWT payload fields `auth.ts` reads; `none` models an absent (or
`null`) claim. -/
structure JWTPayload where
  scope : Option JsVal := none
  scp : Option JsVal := none
  sub : Option JsVal := none
  azp : Option JsVal := none
  client_id : Option JsVal := none
  exp : Option JsVal := none
  aud : Option JsVal := none
  resource : Option JsVal := none

/-- `REQUIRED_SCOPES` (auth.ts line 496). -/
def REQUIRED_SCOPES : List String := ["openid", "profile", "email"]

/-- `AuthorizationError` (auth.ts lines 498–503); the constructor's default
status is 401, so every construction site below passes its status
explicitly. -/
structure AuthorizationError where
  message : String
  status : Int
deriving DecidableEq, Repr

/-- A separator of the scope-splitting regex (a whitespace character or a
comma). -/
def isScopeSep (c : Char) : Bool :=
  isWsChar c || c = ','

/-- The non-empty tokens of `s.split(/[\s,]+/)`: the maximal runs of
non-separator characters, computed right-to-left (a separator starts a fresh
group; a non-separator extends the current one; empty groups — JS split's
empty fragments — are dropped, as the code's `filter` does anyway). -/
def tokenizeScopes (l : List Char) : List (List Char) :=
  (l.foldr
    (fun c acc =>
      if isScopeSep c then [] :: acc
      else
        match acc with
        | [] => [[c]]
        | t :: ts => (c :: t) :: ts)
    []).filter (fun t => t ≠ [])

/-- `extractScopes` (auth.ts lines 505–522).  A present value that is
neither a string nor an array yields `[]` on both of the code's paths
(falsy → early return, truthy → the final `return []`), so both collapse to
one arm. -/
def extractScopes (p : JWTPayload) : List String :=
  let scopeValue :=
    match p.scope with
    | some v => some v
    | none => p.scp
  match scopeValue with
  | none => []
  | some (.str s) =>
    if s = "" then []
    else
      ((tokenizeScopes s.data).map (fun t => jsTrim (String.mk t))).filter
        (fun t => t ≠ "")
  | some (.arr l) =>
    (l.map (fun v =>
      match v with
      | .str t => jsTrim t
      | _ => "")).filter (fun t => t ≠ "")
  | some _ => []

/-- The scopes required but not granted, in `REQUIRED_SCOPES` order
(auth.ts line 525). -/
def missingScopes (scopes : List String) : List String :=
  REQUIRED_SCOPES.filter (fun s => ¬ scopes.contains s)

/-- `ensureRequiredScopes` (auth.ts lines 524–529) as an `Except`. -/
def ensureRequiredScopes (scopes : List String) :
    Except AuthorizationError Unit :=
  let missing := missingScopes scopes
  if missing = [] then .ok ()
  else .error ⟨"Missing required scopes: " ++ String.intercalate ", " missing,
               403⟩

/-- `tryParseUrl` (auth.ts lines 531–540); `urlOk` abstracts `new URL`. -/
def tryParseUrl (urlOk : String → Option String) (v : JsVal) : Option String :=
  match v with
  | .str s => if s = "" then none else urlOk s
  | _ => none

/-- `resolveResource` (auth.ts lines 542–560). -/
def resolveResource (urlOk : String → Option String) (p : JWTPayload) :
    Option String :=
  let resourceCase :=
    match p.resource with
    | some (.str s) => tryParseUrl urlOk (.str s)
    | _ => none
  match p.aud with
  | some (.str s) => tryParseUrl urlOk (.str s)
  | some (.arr l) =>
    match l.findSome? (fun v => tryParseUrl urlOk v) with
    | some u => some u
    | none => resourceCase
  | _ => resourceCase

/-- `VerifiedAuthInfo` (auth.ts lines 562–567, 606–616). -/
structure VerifiedAuthInfo where
  token : String
  clientId : String
  scopes : List String
  expiresAt : Option Int
  resource : String
  claims : JWTPayload
  subject : Option String

/-- How a verification attempt can fail: an `AuthorizationError` thrown by
`auth.ts` itself, or a rejection from the external `jose` verification. -/
inductive VerifyError where
  | jose (msg : String)
  | authz (e : AuthorizationError)
deriving DecidableEq, Repr

/-- The configuration values `auth.ts` reads from `config.ts`.  The
`expectedAudiences` list is consumed only inside the abstracted `jwtVerify`
call, so it does not appear here. -/
structure AuthConfig where
  auth0Issuer : String
  resourceServerUrl : String

/-- `verifyBearerToken` (auth.ts lines 579–617). -/
def verifyBearerToken (jv : String → Except String JWTPayload)
    (urlOk : String → Option String) (cfg : AuthConfig) (token : String) :
    Except VerifyError VerifiedAuthInfo :=
  if token = "" then .error (.authz ⟨"Missing bearer token", 401⟩)
  else
    match jv token with
    | .error m => .error (.jose m)
    | .ok payload =>
      let scopes := extractScopes payload
      let scopeCheck :=
        if REQUIRED_SCOPES.length > 0 then ensureRequiredScopes scopes
        else .ok ()
      match scopeCheck with
      | .error e => .error (.authz e)
      | .ok _ =>
        let subject :=
          match payload.sub with
          | some (.str s) => some s
          | _ => none
        let clientId :=
          match payload.azp with
          | some (.str s) => s
          | _ =>
            match payload.client_id with
            | some (.str s) => s
            | _ => "unknown_client"
        let expiresAt :=
          match payload.exp with
          | some (.num n) => some n
          | _ => none
        let resourceUrl :=
          (resolveResource urlOk payload).getD cfg.resourceServerUrl
        .ok { token := token
              clientId := clientId
              scopes := scopes
              expiresAt := expiresAt
              resource := resourceUrl
              claims := payload
              subject := subject }

/-- The shape of `req.headers['authorization']`: a single header value or a
repeated (array) header. -/
inductive HeaderV where
  | single (s : String)
  | multi (l : List String)
deriving DecidableEq, Repr

/-- `trimmed.toLowerCase().startsWith('bearer ')`. -/
def bearerPrefixOk (trimmed : String) : Bool :=
  "bearer ".data.isPrefixOf (jsToLower trimmed).data

/-- `authenticateRequest` (auth.ts lines 619–630).  The code's
`if (!header || Array.isArray(header))` guard also catches a *present but
empty-string* header value, which is falsy in JS: it takes the
missing-header path, not the Bearer-prefix check. -/
def authenticateRequest (jv : String → Except String JWTPayload)
    (urlOk : String → Option String) (cfg : AuthConfig)
    (header : Option HeaderV) : Except VerifyError VerifiedAuthInfo :=
  match header with
  | none => .error (.authz ⟨"Missing Authorization header", 401⟩)
  | some (.multi _) => .error (.authz ⟨"Missing Authorization header", 401⟩)
  | some (.single h) =>
    if h = "" then .error (.authz ⟨"Missing Authorization header", 401⟩)
    else
      let trimmed := jsTrim h
      if ¬ bearerPrefixOk trimmed then
        .error (.authz ⟨"Authorization header must be a Bearer token", 401⟩)
      else
        verifyBearerToken jv urlOk cfg (String.mk (trimmed.data.drop 7))

/-! ## Spec-side readings (for refutations)

The following definitions transcribe the *specification's wording* where it
diverges from the code; they are compared against the code-derived
definitions above. -/

/-- Spec-side reading: the value of the first alias key whose raw value is
present AND non-empty, in order — an empty value does not stop the search. -/
def specFirstNonEmptyAlias (raw : RawRecord) : List String → Option String
  | [] => none
  | k :: ks =>
    let v := jsTrim ((jsGet raw k).getD "")
    if v = "" then specFirstNonEmptyAlias raw ks else some v

/-- Spec-side reading of the week anchor: January 4 of the *literal* year
named in the string (no `Date.UTC` two-digit-year mapping). -/
def specJan4Day (y : Int) : Int :=
  daysFromCivil y 1 4

/-- Spec-side reading: the weekday of that literal-year January 4 with
Sunday mapped to 7. -/
def specJan4Weekday (y : Int) : Int :=
  let x := weekdayOfDay (specJan4Day y)
  if x = 0 then 7 else x

/-- Spec-side reading of the Jan-4-anchor formula, anchored at the literal
year. -/
def specIsoWeekMondayMs (year week : Int) : Int :=
  (specJan4Day year + (1 - specJan4Weekday year) + (week - 1) * 7) * msPerDay

/-- Spec-side reading of the route split: the destination is *everything
after the first `-`* (not stopping at a second `-`). -/
def specAfterFirstDash (route : String) : String :=
  String.mk ((route.data.dropWhile (fun c => c ≠ '-')).drop 1)

/-- The trimmed route value of a raw record
(`String(raw['route'] ?? '').trim()`). -/
def routeVal (raw : RawRecord) : String :=
  chainTrim raw ["route"]

/-- The full `query`-derivation precedence chain of `buildRow`
(trends.ts lines 81–124), before the final source-file fallback. -/
def queryPrecedence (raw : RawRecord) : String :=
  let query0 := chainTrim raw ["query", "keyword", "term", "search_term"]
  let route := chainTrim raw ["route"]
  let airline := chainTrim raw ["airline"]
  let season := chainTrim raw ["season"]
  if query0 = "" then
    let q1 :=
      if route ≠ "" ∨ airline ≠ "" then
        jsTrim (String.intercalate " "
          (([route, airline, season]).filter (fun x => x ≠ "")))
      else query0
    if q1 = "" then chainTrim raw ["provider", "category", "topic"] else q1
  else query0

/-! # Theorems

First, order-theoretic facts about the sort comparator: the Boolean `le`
induced by `rowCmp` is total and transitive, so the stable merge sort
produces a `Pairwise`-sorted permutation of its input. -/

theorem stringDataEq {s t : String} (h : s.data = t.data) : s = t := by
  cases s
  cases t
  exact congrArg String.mk h

theorem intCmp_eq_iff (a b : Int) : intCmp a b = .eq ↔ a = b := by
  unfold intCmp
  split_ifs with h1 h2
  · exact ⟨fun h => absurd h (by decide), fun h => absurd h1 (by omega)⟩
  · exact ⟨fun h => absurd h (by decide), fun h => absurd h2 (by omega)⟩
  · exact ⟨fun _ => by omega, fun _ => rfl⟩

theorem intCmp_lt_iff (a b : Int) : intCmp a b = .lt ↔ a < b := by
  unfold intCmp
  split_ifs with h1 h2
  · exact ⟨fun _ => h1, fun _ => rfl⟩
  · exact ⟨fun h => absurd h (by decide), fun h => absurd h (by omega)⟩
  · exact ⟨fun h => absurd h (by decide), fun h => absurd h (by omega)⟩

theorem intCmp_swap (a b : Int) : intCmp a b = (intCmp b a).swap := by
  unfold intCmp
  split_ifs <;> first | rfl | omega

theorem dateCmpDesc_eq_iff (a b : Option Int) :
    dateCmpDesc a b = .eq ↔ a = b := by
  cases a with
  | none =>
    cases b with
    | none => exact ⟨fun _ => rfl, fun _ => rfl⟩
    | some y => exact ⟨fun h => (nomatch h), fun h => (nomatch h)⟩
  | some x =>
    cases b with
    | none => exact ⟨fun h => (nomatch h), fun h => (nomatch h)⟩
    | some y =>
      show intCmp y x = .eq ↔ _
      rw [intCmp_eq_iff]
      exact ⟨fun h => by rw [h], fun h => (Option.some.inj h).symm⟩

theorem dateCmpDesc_swap (a b : Option Int) :
    dateCmpDesc a b = (dateCmpDesc b a).swap := by
  cases a with
  | none => cases b with | none => rfl | some y => rfl
  | some x =>
    cases b with
    | none => rfl
    | some y => exact intCmp_swap y x

theorem dateCmpDesc_lt_trans {a b c : Option Int} (h1 : dateCmpDesc a b = .lt)
    (h2 : dateCmpDesc b c = .lt) : dateCmpDesc a c = .lt := by
  cases a with
  | none => cases b <;> exact nomatch h1
  | some x =>
    cases b with
    | none => cases c <;> exact nomatch h2
    | some y =>
      cases c with
      | none => rfl
      | some z =>
        show intCmp z x = .lt
        rw [intCmp_lt_iff]
        have hyx := (intCmp_lt_iff y x).mp h1
        have hzy := (intCmp_lt_iff z y).mp h2
        omega

theorem chCmp_eq_iff (x y : Char) : chCmp x y = .eq ↔ x = y := by
  unfold chCmp
  split_ifs with h1 h2
  · exact ⟨fun h => absurd h (by decide),
           fun h => absurd h1 (by rw [h]; exact lt_irrefl y)⟩
  · exact ⟨fun h => absurd h (by decide),
           fun h => absurd h2 (by rw [h]; exact lt_irrefl y)⟩
  · exact ⟨fun _ => le_antisymm (not_lt.mp h2) (not_lt.mp h1), fun _ => rfl⟩

theorem chCmp_lt_iff (x y : Char) : chCmp x y = .lt ↔ x < y := by
  unfold chCmp
  split_ifs with h1 h2
  · exact ⟨fun _ => h1, fun _ => rfl⟩
  · exact ⟨fun h => absurd h (by decide), fun h => absurd h h1⟩
  · exact ⟨fun h => absurd h (by decide), fun h => absurd h h1⟩

theorem chCmp_swap (x y : Char) : chCmp x y = (chCmp y x).swap := by
  unfold chCmp
  split_ifs with h1 h2 <;>
    first
      | rfl
      | exact absurd h2 (lt_asymm h1)

theorem lexCmpCh_eq_iff : ∀ (a b : List Char), lexCmpCh a b = .eq ↔ a = b := by
  intro a
  induction a with
  | nil =>
    intro b
    cases b with
    | nil => exact ⟨fun _ => rfl, fun _ => rfl⟩
    | cons y ys => exact ⟨fun h => (nomatch h), fun h => (nomatch h)⟩
  | cons x xs ih =>
    intro b
    cases b with
    | nil => exact ⟨fun h => (nomatch h), fun h => (nomatch h)⟩
    | cons y ys =>
      show (match chCmp x y with | .eq => lexCmpCh xs ys | o => o) = .eq ↔ _
      rcases hc : chCmp x y with _ | _ | _
      · refine ⟨fun h => (nomatch h), fun h => ?_⟩
        injection h with h1 h2
        subst h1
        rw [(chCmp_eq_iff x x).mpr rfl] at hc
        exact absurd hc (by decide)
      · have hxy := (chCmp_eq_iff x y).mp hc
        subst hxy
        constructor
        · intro h
          rw [(ih ys).mp h]
        · intro h
          injection h with h1 h2
          subst h2
          exact (ih xs).mpr rfl
      · refine ⟨fun h => (nomatch h), fun h => ?_⟩
        injection h with h1 h2
        subst h1
        rw [(chCmp_eq_iff x x).mpr rfl] at hc
        exact absurd hc (by decide)

theorem lexCmpCh_swap : ∀ (a b : List Char),
    lexCmpCh a b = (lexCmpCh b a).swap := by
  intro a
  induction a with
  | nil =>
    intro b
    cases b with
    | nil => rfl
    | cons y ys => rfl
  | cons x xs ih =>
    intro b
    cases b with
    | nil => rfl
    | cons y ys =>
      show (match chCmp x y with | .eq => lexCmpCh xs ys | o => o)
        = (match chCmp y x with | .eq => lexCmpCh ys xs | o => o).swap
      rcases hc : chCmp y x with _ | _ | _
      · have hs := chCmp_swap x y
        rw [hc] at hs
        rw [hs]
        rfl
      · have hs := chCmp_swap x y
        rw [hc] at hs
        rw [hs]
        exact ih ys
      · have hs := chCmp_swap x y
        rw [hc] at hs
        rw [hs]
        rfl

theorem lexCmpCh_lt_trans :
    ∀ (a b c : List Char), lexCmpCh a b = .lt → lexCmpCh b c = .lt →
      lexCmpCh a c = .lt := by
  intro a
  induction a with
  | nil =>
    intro b c h1 h2
    cases b with
    | nil => exact nomatch h1
    | cons y ys =>
      cases c with
      | nil => exact nomatch h2
      | cons z zs => rfl
  | cons x xs ih =>
    intro b c h1 h2
    cases b with
    | nil => exact nomatch h1
    | cons y ys =>
      cases c with
      | nil => exact nomatch h2
      | cons z zs =>
        change (match chCmp x y with | .eq => lexCmpCh xs ys | o => o) = .lt at h1
        change (match chCmp y z with | .eq => lexCmpCh ys zs | o => o) = .lt at h2
        show (match chCmp x z with | .eq => lexCmpCh xs zs | o => o) = .lt
        rcases hxy : chCmp x y with _ | _ | _ <;> rw [hxy] at h1
        · rcases hyz : chCmp y z with _ | _ | _ <;> rw [hyz] at h2
          · have hxz : chCmp x z = .lt := (chCmp_lt_iff x z).mpr
              (lt_trans ((chCmp_lt_iff x y).mp hxy) ((chCmp_lt_iff y z).mp hyz))
            rw [hxz]
          · have hyzeq := (chCmp_eq_iff y z).mp hyz
            subst hyzeq
            rw [hxy]
          · exact nomatch h2
        · have h1' : lexCmpCh xs ys = .lt := h1
          have hxyeq := (chCmp_eq_iff x y).mp hxy
          subst hxyeq
          rcases hyz : chCmp x z with _ | _ | _ <;> rw [hyz] at h2
          · exact ih ys zs h1' h2
          · exact nomatch h2
        · exact nomatch h1

theorem strCmp_eq_iff (a b : String) : strCmp a b = .eq ↔ a = b := by
  unfold strCmp
  rw [lexCmpCh_eq_iff]
  exact ⟨stringDataEq, fun h => by rw [h]⟩

theorem strCmp_swap (a b : String) : strCmp a b = (strCmp b a).swap :=
  lexCmpCh_swap a.data b.data

theorem strCmp_lt_trans {a b c : String} (h1 : strCmp a b = .lt)
    (h2 : strCmp b c = .lt) : strCmp a c = .lt :=
  lexCmpCh_lt_trans a.data b.data c.data h1 h2

/-- Transitivity of "non-positive" outcomes for a lawful key comparator. -/
theorem keyCmp_ne_gt_trans {κ : Type} (kc : κ → κ → Ordering)
    (keq : ∀ x y, kc x y = .eq ↔ x = y)
    (klt : ∀ {x y z}, kc x y = .lt → kc y z = .lt → kc x z = .lt)
    {x y z : κ} (h1 : kc x y ≠ .gt) (h2 : kc y z ≠ .gt) : kc x z ≠ .gt := by
  rcases e1 : kc x y with _ | _ | _
  · rcases e2 : kc y z with _ | _ | _
    · rw [klt e1 e2]
      decide
    · have hyz := (keq y z).mp e2
      subst hyz
      rw [e1]
      decide
    · exact absurd (by rw [e2]) h2
  · have hxy := (keq x y).mp e1
    subst hxy
    exact h2
  · exact absurd (by rw [e1]) h1

/-- Transitivity of "non-positive" outcomes for a lexicographic combination
of a lawful key comparator with a tail comparator that itself has
transitive non-positive outcomes. -/
theorem then_ne_gt_trans {α κ : Type} (kc : κ → κ → Ordering) (f : α → κ)
    (rest : α → α → Ordering)
    (keq : ∀ x y, kc x y = .eq ↔ x = y)
    (klt : ∀ {x y z}, kc x y = .lt → kc y z = .lt → kc x z = .lt)
    (hrest : ∀ {a b c : α}, rest a b ≠ .gt → rest b c ≠ .gt → rest a c ≠ .gt)
    {a b c : α}
    (h1 : (kc (f a) (f b)).then (rest a b) ≠ .gt)
    (h2 : (kc (f b) (f c)).then (rest b c) ≠ .gt) :
    (kc (f a) (f c)).then (rest a c) ≠ .gt := by
  intro hgt
  rcases Ordering.then_eq_gt.mp hgt with hk | ⟨hk, hr⟩
  · rcases e1 : kc (f a) (f b) with _ | _ | _
    · rcases e2 : kc (f b) (f c) with _ | _ | _
      · exact absurd hk (by rw [klt e1 e2]; decide)
      · have := (keq (f b) (f c)).mp e2
        rw [← this, e1] at hk
        exact absurd hk (by decide)
      · exact h2 (by rw [Ordering.then_eq_gt]; exact Or.inl e2)
    · have := (keq (f a) (f b)).mp e1
      rw [this] at hk
      rcases e2 : kc (f b) (f c) with _ | _ | _
      · rw [e2] at hk
        exact absurd hk (by decide)
      · have h2' := (keq (f b) (f c)).mp e2
        rw [h2'] at hk
        have : kc (f c) (f c) = .eq := (keq (f c) (f c)).mpr rfl
        rw [this] at hk
        exact absurd hk (by decide)
      · exact h2 (by rw [Ordering.then_eq_gt]; exact Or.inl e2)
    · exact h1 (by rw [Ordering.then_eq_gt]; exact Or.inl e1)
  · -- the head keys of `a` and `c` compare equal: both tails must be ≤,
    -- and the head comparisons of the two hypotheses must not be .gt
    rcases e1 : kc (f a) (f b) with _ | _ | _
    · rcases e2 : kc (f b) (f c) with _ | _ | _
      · rw [klt e1 e2] at hk
        exact absurd hk (by decide)
      · have := (keq (f b) (f c)).mp e2
        rw [← this, e1] at hk
        exact absurd hk (by decide)
      · exact h2 (by rw [Ordering.then_eq_gt]; exact Or.inl e2)
    · have hab := (keq (f a) (f b)).mp e1
      rcases e2 : kc (f b) (f c) with _ | _ | _
      · rw [hab, e2] at hk
        exact absurd hk (by decide)
      · have hbc := (keq (f b) (f c)).mp e2
        have hr1 : rest a b ≠ .gt := by
          intro hg
          exact h1 (by rw [Ordering.then_eq_gt]; exact Or.inr ⟨e1, hg⟩)
        have hr2 : rest b c ≠ .gt := by
          intro hg
          exact h2 (by rw [Ordering.then_eq_gt]; exact Or.inr ⟨e2, hg⟩)
        exact hrest hr1 hr2 hr
      · exact h2 (by rw [Ordering.then_eq_gt]; exact Or.inl e2)
    · exact h1 (by rw [Ordering.then_eq_gt]; exact Or.inl e1)

theorem rowLe_trans (fb : String → Option Int) (a b c : TrendRow)
    (h1 : rowLe fb a b = true) (h2 : rowLe fb b c = true) :
    rowLe fb a c = true := by
  simp only [rowLe, ne_eq, decide_eq_true_eq] at h1 h2 ⊢
  unfold rowCmp at h1 h2 ⊢
  refine then_ne_gt_trans dateCmpDesc (snapKey fb)
    (fun x y => (strCmp (routeOrQuery x) (routeOrQuery y)).then
      (strCmp (airlineKey x) (airlineKey y)))
    dateCmpDesc_eq_iff
    (fun hxy hyz => dateCmpDesc_lt_trans hxy hyz) ?_ h1 h2
  intro a' b' c' g1 g2
  refine then_ne_gt_trans strCmp routeOrQuery
    (fun x y => strCmp (airlineKey x) (airlineKey y)) strCmp_eq_iff
    (fun hxy hyz => strCmp_lt_trans hxy hyz) ?_ g1 g2
  intro a'' b'' c'' k1 k2
  exact keyCmp_ne_gt_trans strCmp strCmp_eq_iff
    (fun hxy hyz => strCmp_lt_trans hxy hyz)
    (x := airlineKey a'') (y := airlineKey b'') (z := airlineKey c'') k1 k2

theorem rowCmp_swap (fb : String → Option Int) (a b : TrendRow) :
    rowCmp fb a b = (rowCmp fb b a).swap := by
  unfold rowCmp
  rw [Ordering.swap_then, Ordering.swap_then,
      ← dateCmpDesc_swap, ← strCmp_swap, ← strCmp_swap]

theorem rowLe_total (fb : String → Option Int) (a b : TrendRow) :
    (rowLe fb a b || rowLe fb b a) = true := by
  simp only [rowLe]
  have hs := rowCmp_swap fb a b
  rcases h : rowCmp fb b a with _ | _ | _
  · simp [h]
  · simp [h]
  · have hl : rowCmp fb a b = .lt := by rw [hs, h]; rfl
    simp [hl]

/-- "`x`'s parsed snapshot date is strictly more recent than `y`'s", where an
unparsable date (`none`) counts as strictly older than every parsed date. -/
def snapshotLater (x y : Option Int) : Prop :=
  match x, y with
  | some dx, some dy => dy < dx
  | some _, none => True
  | none, _ => False

/-- Code-point "strictly before" on strings (the model of a negative
`localeCompare`). -/
def strLtCp (a b : String) : Prop :=
  lexCmpCh a.data b.data = .lt

/-- Code-point "before or equal" on strings (the model of a non-positive
`localeCompare`); the empty string is `strLeCp`-below every string. -/
def strLeCp (a b : String) : Prop :=
  lexCmpCh a.data b.data ≠ .gt

/-- The sort order stated by the specification: parsed snapshot date
descending with unparsable dates after all dated rows, ties broken by route
(or query when the row has no route) ascending, remaining ties broken by
airline ascending. -/
def claimSortLE (fb : String → Option Int) (a b : TrendRow) : Prop :=
  snapshotLater (snapKey fb a) (snapKey fb b)
  ∨ (snapKey fb a = snapKey fb b
     ∧ (strLtCp (routeOrQuery a) (routeOrQuery b)
        ∨ (routeOrQuery a = routeOrQuery b
           ∧ strLeCp (airlineKey a) (airlineKey b))))

theorem dateCmpDesc_lt_iff (x y : Option Int) :
    dateCmpDesc x y = .lt ↔ snapshotLater x y := by
  cases x with
  | none =>
    cases y with
    | none => exact ⟨fun h => (nomatch h), fun h => (nomatch h)⟩
    | some dy => exact ⟨fun h => (nomatch h), fun h => (nomatch h)⟩
  | some dx =>
    cases y with
    | none => exact ⟨fun _ => trivial, fun _ => rfl⟩
    | some dy => exact intCmp_lt_iff dy dx

theorem rowLe_iff_claimSortLE (fb : String → Option Int) (a b : TrendRow) :
    rowLe fb a b = true ↔ claimSortLE fb a b := by
  simp only [rowLe, ne_eq, decide_eq_true_eq]
  unfold rowCmp claimSortLE
  rw [← dateCmpDesc_lt_iff, ← dateCmpDesc_eq_iff]
  unfold strLtCp strLeCp
  rw [show (lexCmpCh (routeOrQuery a).data (routeOrQuery b).data)
        = strCmp (routeOrQuery a) (routeOrQuery b) from rfl,
      show (lexCmpCh (airlineKey a).data (airlineKey b).data)
        = strCmp (airlineKey a) (airlineKey b) from rfl,
      ← strCmp_eq_iff]
  rcases hd : dateCmpDesc (snapKey fb a) (snapKey fb b) with _ | _ | _ <;>
    rcases hr : strCmp (routeOrQuery a) (routeOrQuery b) with _ | _ | _ <;>
      rcases hal : strCmp (airlineKey a) (airlineKey b) with _ | _ | _ <;>
        simp [Ordering.then]

/-- The sorted filtered set is `Pairwise`-ordered by the comparator's `le`. -/
theorem sortedMatchedRows_pairwise (fb : String → Option Int)
    (dir : List DirEntry) (f : AirfareTrendFilters) :
    (sortedMatchedRows fb dir f).Pairwise (fun a b => rowLe fb a b = true) := by
  unfold sortedMatchedRows
  exact List.sorted_mergeSort (rowLe_trans fb) (rowLe_total fb)
    (matchedRows fb dir f)

/-- The sort is a permutation of the filtered set. -/
theorem sortedMatchedRows_perm (fb : String → Option Int)
    (dir : List DirEntry) (f : AirfareTrendFilters) :
    (sortedMatchedRows fb dir f).Perm (matchedRows fb dir f) :=
  List.mergeSort_perm (matchedRows fb dir f) (rowLe fb)

/-- In both result branches, the returned rows are the first
`effectiveLimit` elements of the sorted filtered set (the zero-row early
return returns `[]`, which is such a slice of the empty sorted set). -/
theorem queryRows_eq_take (fb : String → Option Int) (dir : List DirEntry)
    (f : AirfareTrendFilters) :
    (queryAirfareTrends fb dir f).rows
      = (sortedMatchedRows fb dir f).take (effectiveLimit f).toNat := by
  unfold queryAirfareTrends
  by_cases hz : (loadTrendDataset dir).rows.isEmpty
  · have hm : matchedRows fb dir f = [] := by
      unfold matchedRows
      rw [List.isEmpty_iff.mp hz]
      rfl
    have hsm : sortedMatchedRows fb dir f = [] := by
      unfold sortedMatchedRows
      rw [hm, List.mergeSort_nil]
    simp only [hz, if_true, hsm, List.take_nil]
  · simp only [hz, if_false, Bool.false_eq_true]

/-! ## C5 — `date` / `snapshot_date` derivation -/

/-- C5 (counterexample): the claim says `date` is the first *non-empty*
value among `snapshot_date`, `date`, `week`, `week_id`, `period`, so that a
present-but-empty `date` would not hide a non-empty `week`.  On the raw
record `{date: "", week: "2024-W01"}` the code's `??`-chain stops at the
present-but-empty `date`, producing `""`, not `"2024-W01"`. -/
theorem c5_counterexample :
    (buildRow [("date", ""), ("week", "2024-W01")] "trends.csv" "csv").date
      ≠ (specFirstNonEmptyAlias [("date", ""), ("week", "2024-W01")]
          ["snapshot_date", "date", "week", "week_id", "period"]).getD "" := by
  decide

/-- C5 (amended): the canonical `date` equals the trimmed raw
`snapshot_date` when that is non-empty, and otherwise the trimmed
stringification of the first *present* (non-nullish) value among `date`,
`week`, `week_id`, `period` — a present-but-empty `date` value therefore
hides a non-empty `week` value; and `snapshot_date` always coincides with
`date` (raw `snapshot_date` when non-empty, else the same fallback). -/
theorem c5_date_derivation (raw : RawRecord) (sf fmt : String) :
    (buildRow raw sf fmt).date =
      jsOr (chainTrim raw ["snapshot_date"])
        (chainTrim raw ["date", "week", "week_id", "period"])
    ∧ (buildRow raw sf fmt).snapshot_date = (buildRow raw sf fmt).date := by
  refine ⟨rfl, ?_⟩
  show jsOr (chainTrim raw ["snapshot_date"])
        (jsOr (chainTrim raw ["snapshot_date"])
          (chainTrim raw ["date", "week", "week_id", "period"]))
    = jsOr (chainTrim raw ["snapshot_date"])
        (chainTrim raw ["date", "week", "week_id", "period"])
  unfold jsOr
  by_cases h : chainTrim raw ["snapshot_date"] = "" <;> simp [h]

/-! ## C9 — the `query` invariant -/

/-- C9 (counterexample): the claim says `query` starts from the first
*non-empty* of the raw `query`, `keyword`, `term`, `search_term` aliases.
On `{query: "", keyword: "foo"}` the code's `??`-chain stops at the
present-but-empty `query`, skips `"foo"`, and falls back to the source file
name. -/
theorem c9_counterexample :
    (buildRow [("query", ""), ("keyword", "foo")] "trends.csv" "csv").query
      ≠ (specFirstNonEmptyAlias [("query", ""), ("keyword", "foo")]
          ["query", "keyword", "term", "search_term"]).getD "" := by
  decide

/-- C9 (amended): for every raw record, the built row's `query` is the
trimmed first *present* value of the raw `query`/`keyword`/`term`/
`search_term` aliases; when that is empty, the space-joined non-empty
values of route, airline, season (when route or airline is non-blank),
else the trimmed first present of `provider`/`category`/`topic`; else the
source file name — and `query` is never empty whenever the source file name
is non-empty. -/
theorem c9_query_never_empty (raw : RawRecord) (sf fmt : String)
    (h : sf ≠ "") :
    (buildRow raw sf fmt).query = jsOr (queryPrecedence raw) sf
    ∧ (buildRow raw sf fmt).query ≠ "" := by
  refine ⟨rfl, ?_⟩
  show jsOr (queryPrecedence raw) sf ≠ ""
  unfold jsOr
  by_cases hq : queryPrecedence raw = "" <;> simp [hq, h]

/-- C9 (witness): the amended theorem applied to the empty raw record and a
concrete source file. -/
theorem c9_query_never_empty_witness :
    (buildRow [] "trends.csv" "csv").query = jsOr (queryPrecedence []) "trends.csv"
    ∧ (buildRow [] "trends.csv" "csv").query ≠ "" :=
  c9_query_never_empty [] "trends.csv" "csv" (by decide)

/-! ## C6 — route splitting -/

/-- C6 (counterexample): the claim says the destination is everything after
the first `-`.  On `route = "AAA-BBB-CCC"` the code's `split('-', 2)` keeps
only the first two segments, so the destination is `"BBB"`, not
`"BBB-CCC"`. -/
theorem c6_counterexample :
    (buildRow [("route", "AAA-BBB-CCC")] "f.csv" "csv").destination_airport
      ≠ some (jsTrim (specAfterFirstDash "AAA-BBB-CCC")) := by
  decide

/-- C6 (amended): when the trimmed route is non-empty and contains a `-`,
the row's `route` is the trimmed route, `origin_airport` is the trimmed
segment before the first `-` and `destination_airport` the trimmed segment
between the first and second `-` (to the end when there is no second `-`),
each field present only when its trimmed segment is non-empty; and the
claim's concrete CSV example derives exactly as stated. -/
theorem c6_route_split (raw : RawRecord) (sf fmt : String)
    (hr : routeVal raw ≠ "")
    (hd : jsIncludes (routeVal raw) "-" = true) :
    ((buildRow raw sf fmt).route = some (routeVal raw)
     ∧ (buildRow raw sf fmt).origin_airport =
         (let o := jsTrim (String.mk (firstDashSeg (routeVal raw).data))
          if o = "" then none else some o)
     ∧ (buildRow raw sf fmt).destination_airport =
         (let d := jsTrim (String.mk (secondDashSeg (routeVal raw).data))
          if d = "" then none else some d))
    ∧ ((buildRow [("route", "JFK-LHR"), ("airline", "Acme Air"),
          ("season", "Summer")] "f.csv" "csv").route = some "JFK-LHR"
       ∧ (buildRow [("route", "JFK-LHR"), ("airline", "Acme Air"),
            ("season", "Summer")] "f.csv" "csv").origin_airport = some "JFK"
       ∧ (buildRow [("route", "JFK-LHR"), ("airline", "Acme Air"),
            ("season", "Summer")] "f.csv" "csv").destination_airport
          = some "LHR"
       ∧ (buildRow [("route", "JFK-LHR"), ("airline", "Acme Air"),
            ("season", "Summer")] "f.csv" "csv").airline = some "Acme Air"
       ∧ (buildRow [("route", "JFK-LHR"), ("airline", "Acme Air"),
            ("season", "Summer")] "f.csv" "csv").season = some "Summer"
       ∧ (buildRow [("route", "JFK-LHR"), ("airline", "Acme Air"),
            ("season", "Summer")] "f.csv" "csv").query
          = "JFK-LHR Acme Air Summer") := by
  constructor
  · refine ⟨?_, ?_, ?_⟩
    · show (if routeVal raw = "" then none else some (routeVal raw)) = _
      rw [if_neg hr]
    · show (if (routeVal raw ≠ "" ∧ jsIncludes (routeVal raw) "-")
              ∧ jsTrim (String.mk (firstDashSeg (routeVal raw).data)) ≠ ""
            then some (jsTrim (String.mk (firstDashSeg (routeVal raw).data)))
            else none) = _
      by_cases ho : jsTrim (String.mk (firstDashSeg (routeVal raw).data)) = ""
      · rw [if_neg (by simp [ho]), ho, if_pos rfl]
      · rw [if_pos ⟨⟨hr, by rw [hd]⟩, ho⟩, if_neg ho]
    · show (if (routeVal raw ≠ "" ∧ jsIncludes (routeVal raw) "-")
              ∧ jsTrim (String.mk (secondDashSeg (routeVal raw).data)) ≠ ""
            then some (jsTrim (String.mk (secondDashSeg (routeVal raw).data)))
            else none) = _
      by_cases ho : jsTrim (String.mk (secondDashSeg (routeVal raw).data)) = ""
      · rw [if_neg (by simp [ho]), ho, if_pos rfl]
      · rw [if_pos ⟨⟨hr, by rw [hd]⟩, ho⟩, if_neg ho]
  · refine ⟨?_, ?_, ?_, ?_, ?_, ?_⟩ <;> decide

/-- C6 (witness): the amended theorem applied to the claim's own CSV
example row. -/
theorem c6_route_split_witness :
    (buildRow [("route", "JFK-LHR"), ("airline", "Acme Air"),
        ("season", "Summer")] "f.csv" "csv").route = some "JFK-LHR"
    ∧ (buildRow [("route", "JFK-LHR"), ("airline", "Acme Air"),
        ("season", "Summer")] "f.csv" "csv").origin_airport
      = (let o := jsTrim (String.mk (firstDashSeg
          (routeVal [("route", "JFK-LHR"), ("airline", "Acme Air"),
            ("season", "Summer")]).data))
         if o = "" then none else some o) :=
  let h := c6_route_split
    [("route", "JFK-LHR"), ("airline", "Acme Air"), ("season", "Summer")]
    "f.csv" "csv" (by decide) (by decide)
  ⟨h.1.1, h.1.2.1⟩

/-! ## C1 — per-file failure tolerance in `loadTrendDataset` -/

unseal List.merge List.mergeSort in
/-- C1 (counterexample): the claim says a file whose parse throws is
excluded from `availableFiles`.  On a directory with a failing
`bad.json` and a well-formed `good.csv`, the rows come from `good.csv`
alone, but `availableFiles` still lists `bad.json`: `availableFiles` is
built from every supported directory entry, regardless of parse outcome. -/
theorem c1_counterexample :
    (loadTrendDataset
      [⟨"bad.json", true, .error "SyntaxError"⟩,
       ⟨"good.csv", true, .ok [buildRow [("route", "JFK-LHR")] "good.csv" "csv"]⟩]).availableFiles
      = ["bad.json", "good.csv"]
    ∧ (loadTrendDataset
      [⟨"bad.json", true, .error "SyntaxError"⟩,
       ⟨"good.csv", true, .ok [buildRow [("route", "JFK-LHR")] "good.csv" "csv"]⟩]).rows
      = [buildRow [("route", "JFK-LHR")] "good.csv" "csv"] := by
  constructor
  · rfl
  · rfl

/-- C1 (amended): `loadTrendDataset` is total (a per-file parse failure is
swallowed, never surfaced); its rows are exactly the concatenated rows of
the successfully parsed files (every returned row comes from some entry
whose parse succeeded); and the name of *every* supported regular file —
failing or successful — appears in `availableFiles`. -/
theorem c1_loader_partial_failure (dir : List DirEntry) (e : DirEntry)
    (he : e ∈ dir) (hf : e.isFile = true)
    (hs : (suffixOf e.name).isSome = true) :
    e.name ∈ (loadTrendDataset dir).availableFiles
    ∧ (loadTrendDataset dir).rows
        = (supportedEntriesSorted dir).flatMap okRowsOf
    ∧ (∀ r, r ∈ (loadTrendDataset dir).rows →
        ∃ e', e' ∈ dir ∧ ∃ rs, e'.parseResult = .ok rs ∧ r ∈ rs) := by
  refine ⟨?_, rfl, ?_⟩
  · have hmem : e ∈ dir.filter (fun e => e.isFile && (suffixOf e.name).isSome) :=
      List.mem_filter.mpr ⟨he, by rw [hf, hs]; rfl⟩
    have hsorted : e ∈ supportedEntriesSorted dir :=
      (List.mergeSort_perm _ entryLe).mem_iff.mpr hmem
    exact List.mem_map_of_mem (fun e => e.name) hsorted
  · intro r hr
    have := List.mem_flatMap.mp hr
    obtain ⟨e', he', hrows⟩ := this
    have he'dir : e' ∈ dir := by
      have hfil : e' ∈ dir.filter (fun e => e.isFile && (suffixOf e.name).isSome) :=
        (List.mergeSort_perm _ entryLe).mem_iff.mp he'
      exact (List.mem_filter.mp hfil).1
    refine ⟨e', he'dir, ?_⟩
    unfold okRowsOf at hrows
    rcases hpr : e'.parseResult with m | rs
    · rw [hpr] at hrows
      exact absurd hrows (List.not_mem_nil r)
    · rw [hpr] at hrows
      exact ⟨rs, rfl, hrows⟩

/-- C1 (witness): on the two-file directory of the counterexample, the
failing file's name is reported available, by the amended theorem applied
to the `bad.json` entry. -/
theorem c1_loader_partial_failure_witness :
    "bad.json" ∈ (loadTrendDataset
      [⟨"bad.json", true, .error "SyntaxError"⟩,
       ⟨"good.csv", true, .ok [buildRow [("route", "JFK-LHR")] "good.csv" "csv"]⟩]).availableFiles :=
  (c1_loader_partial_failure
    [⟨"bad.json", true, .error "SyntaxError"⟩,
     ⟨"good.csv", true, .ok [buildRow [("route", "JFK-LHR")] "good.csv" "csv"]⟩]
    ⟨"bad.json", true, .error "SyntaxError"⟩
    (List.mem_cons_self _ _) rfl (by decide)).1

/-! ## C3 — limit clamping and slicing -/

/-- C3: the effective limit is the requested limit (default 25) clamped into
`[1, 200]`; the returned rows are the first effective-limit elements of the
sorted matched rows (trivially so on the zero-row early return); hence at
most 200 rows are ever returned, and a zero or negative requested limit
returns at most one row. -/
theorem c3_limit_clamp (fb : String → Option Int) (dir : List DirEntry)
    (f : AirfareTrendFilters) (k : Int) (hk : f.limit = some k)
    (hneg : k ≤ 0) :
    (∀ f' : AirfareTrendFilters,
        (queryAirfareTrends fb dir f').rows
          = (sortedMatchedRows fb dir f').take (effectiveLimit f').toNat)
    ∧ (∀ f' : AirfareTrendFilters,
        effectiveLimit f' = min (max (f'.limit.getD 25) 1) 200)
    ∧ (∀ f' : AirfareTrendFilters,
        (queryAirfareTrends fb dir f').rows.length ≤ 200)
    ∧ (queryAirfareTrends fb dir f).rows.length ≤ 1 := by
  have hrows := queryRows_eq_take fb dir
  refine ⟨hrows, fun _ => rfl, ?_, ?_⟩
  · intro f'
    rw [hrows f']
    have h1 : (effectiveLimit f').toNat ≤ 200 := by
      have : effectiveLimit f' ≤ 200 := min_le_right _ _
      omega
    exact le_trans (List.length_take_le _ _) h1
  · rw [hrows f]
    have h1 : (effectiveLimit f).toNat ≤ 1 := by
      have : effectiveLimit f ≤ 1 := by
        unfold effectiveLimit
        rw [hk]
        simp only [Option.getD_some]
        omega
      omega
    exact le_trans (List.length_take_le _ _) h1

/-- C3 (witness): a negative limit on a one-file directory returns at most
one row, and the 200 cap holds for a limit of 1000, by the theorem applied
at concrete inputs. -/
theorem c3_limit_clamp_witness :
    (queryAirfareTrends (fun _ => none)
      [⟨"good.csv", true, .ok [buildRow [("route", "JFK-LHR")] "good.csv" "csv"]⟩]
      { limit := some (-5) }).rows.length ≤ 1
    ∧ (queryAirfareTrends (fun _ => none)
      [⟨"good.csv", true, .ok [buildRow [("route", "JFK-LHR")] "good.csv" "csv"]⟩]
      { limit := some 1000 }).rows.length ≤ 200 :=
  ⟨(c3_limit_clamp (fun _ => none)
      [⟨"good.csv", true, .ok [buildRow [("route", "JFK-LHR")] "good.csv" "csv"]⟩]
      { limit := some (-5) } (-5) rfl (by omega)).2.2.2,
   (c3_limit_clamp (fun _ => none)
      [⟨"good.csv", true, .ok [buildRow [("route", "JFK-LHR")] "good.csv" "csv"]⟩]
      { limit := some (-5) } (-5) rfl (by omega)).2.2.1 { limit := some 1000 }⟩

/-! ## C8 — result counters and filter echo -/

unseal List.merge List.mergeSort in
/-- C8 (counterexample): the claim says the result always echoes the
normalized filter values with the clamped limit, including on a zero-row
dataset.  On the empty directory with `limit = 1000`, the early return
echoes the caller's raw criteria object unchanged — no snake_case
normalization and no clamped limit. -/
theorem c8_counterexample :
    (queryAirfareTrends (fun _ => none) [] { limit := some 1000 }).filters
      ≠ FiltersEcho.normalized (normalizedEcho { limit := some 1000 }) := by
  decide

/-- C8 (amended): `total_rows` is the row count before filtering,
`matched_rows` the count after filtering and before the limit, and
`rows_returned` the count of the returned rows, on every dataset including
the empty one; the filter echo is the snake_case normalized object with the
clamped limit when the loaded dataset is non-empty, and the caller's raw
criteria unchanged (with no clamping) when it has zero rows. -/
theorem c8_result_counters (fb : String → Option Int) (dir : List DirEntry)
    (f : AirfareTrendFilters) :
    (queryAirfareTrends fb dir f).total_rows = (loadTrendDataset dir).rows.length
    ∧ (queryAirfareTrends fb dir f).matched_rows = (matchedRows fb dir f).length
    ∧ (queryAirfareTrends fb dir f).rows_returned
        = (queryAirfareTrends fb dir f).rows.length
    ∧ (queryAirfareTrends fb dir f).filters
        = (if (loadTrendDataset dir).rows.isEmpty then FiltersEcho.raw f
           else FiltersEcho.normalized (normalizedEcho f)) := by
  unfold queryAirfareTrends
  by_cases hz : (loadTrendDataset dir).rows.isEmpty
  · have hm : matchedRows fb dir f = [] := by
      unfold matchedRows
      rw [List.isEmpty_iff.mp hz]
      rfl
    have hlen : (loadTrendDataset dir).rows.length = 0 := by
      rw [List.isEmpty_iff.mp hz]
      rfl
    simp only [hz, if_true, hm, hlen, List.length_nil]
    exact ⟨trivial, trivial, trivial, trivial⟩
  · have hperm := sortedMatchedRows_perm fb dir f
    simp only [hz, if_false, Bool.false_eq_true]
    exact ⟨trivial, hperm.length_eq, trivial, trivial⟩

/-! ## C7 — sort order of the result rows -/

/-- C7: the rows of every query result are ordered by parsed snapshot date
descending, rows with an unparsable snapshot date after all dated rows,
ties broken by route (or query when the row has no route) ascending, and
remaining ties by airline ascending (the empty string first); and the
sorted set is a permutation of the filtered set. -/
theorem c7_sort_order (fb : String → Option Int) (dir : List DirEntry)
    (f : AirfareTrendFilters) :
    (queryAirfareTrends fb dir f).rows.Pairwise (claimSortLE fb)
    ∧ (sortedMatchedRows fb dir f).Perm (matchedRows fb dir f) := by
  constructor
  · have hp := sortedMatchedRows_pairwise fb dir f
    have hp' : (sortedMatchedRows fb dir f).Pairwise (claimSortLE fb) :=
      hp.imp (fun h => (rowLe_iff_claimSortLE fb _ _).mp h)
    rw [queryRows_eq_take]
    exact List.Pairwise.sublist (List.take_sublist _ _) hp'
  · exact sortedMatchedRows_perm fb dir f

/-! ## C10 — unparsable snapshot-date filter -/

/-- C10: when the criteria's `snapshotDate` is present but none of the three
date formats parses it, the snapshot predicate accepts every row and the
query behaves exactly as if the filter were absent: same filtered set, same
returned rows, same matched count — no empty result and no error. -/
theorem c10_unparsable_snapshot_filter (fb : String → Option Int)
    (dir : List DirEntry) (f : AirfareTrendFilters) (s : String)
    (_hs : f.snapshotDate = some s)
    (hp : parseIsoDate fb f.snapshotDate = none) :
    (∀ row, snapshotPass fb f row = true)
    ∧ matchedRows fb dir f = matchedRows fb dir { f with snapshotDate := none }
    ∧ (queryAirfareTrends fb dir f).rows
        = (queryAirfareTrends fb dir { f with snapshotDate := none }).rows
    ∧ (queryAirfareTrends fb dir f).matched_rows
        = (queryAirfareTrends fb dir { f with snapshotDate := none }).matched_rows := by
  have hpass : ∀ row, snapshotPass fb f row = true := by
    intro row
    unfold snapshotPass
    rw [hp]
  have hrm : rowMatches fb f = rowMatches fb { f with snapshotDate := none } := by
    funext row
    unfold rowMatches
    rw [hpass row]
    rfl
  have hmatched : matchedRows fb dir f
      = matchedRows fb dir { f with snapshotDate := none } := by
    unfold matchedRows
    rw [hrm]
  have hsm : sortedMatchedRows fb dir f
      = sortedMatchedRows fb dir { f with snapshotDate := none } := by
    unfold sortedMatchedRows
    rw [hmatched]
  refine ⟨hpass, hmatched, ?_, ?_⟩
  · rw [queryRows_eq_take, queryRows_eq_take, hsm]
    rfl
  · unfold queryAirfareTrends
    by_cases hz : (loadTrendDataset dir).rows.isEmpty
    · simp only [hz, if_true]
    · simp only [hz, if_false, Bool.false_eq_true, hsm]

/-- C10 (witness): the theorem applied to a one-row dataset and the
unparsable filter string `"not-a-valid-date"`, with the host's free-form
parser rejecting everything. -/
theorem c10_unparsable_snapshot_filter_witness :
    (queryAirfareTrends (fun _ => none)
      [⟨"good.csv", true, .ok [buildRow [("route", "JFK-LHR")] "good.csv" "csv"]⟩]
      { snapshotDate := some "not-a-valid-date" }).rows
    = (queryAirfareTrends (fun _ => none)
      [⟨"good.csv", true, .ok [buildRow [("route", "JFK-LHR")] "good.csv" "csv"]⟩]
      { snapshotDate := none }).rows :=
  (c10_unparsable_snapshot_filter (fun _ => none)
    [⟨"good.csv", true, .ok [buildRow [("route", "JFK-LHR")] "good.csv" "csv"]⟩]
    { snapshotDate := some "not-a-valid-date" } "not-a-valid-date"
    rfl rfl).2.2.1

/-! ## C2 — scope enforcement and status classes -/

/-- C2: a verified token whose extracted scopes omit required scopes fails
with a 403 `AuthorizationError` whose message names exactly the missing
scopes (the required scopes not contained in the extracted set, no more, no
fewer); every other `auth.ts` authentication failure — empty bearer token,
absent, repeated or present-but-empty (falsy) Authorization header,
non-Bearer header — carries status 401. -/
theorem c2_scope_enforcement (jv : String → Except String JWTPayload)
    (urlOk : String → Option String) (cfg : AuthConfig) (token : String)
    (payload : JWTPayload) (hjv : jv token = .ok payload) (ht : token ≠ "")
    (hm : missingScopes (extractScopes payload) ≠ [])
    (hdr : String) (hl : List String) (hhdr : hdr ≠ "")
    (hb : bearerPrefixOk (jsTrim hdr) = false) :
    verifyBearerToken jv urlOk cfg token
      = .error (.authz ⟨"Missing required scopes: "
          ++ String.intercalate ", " (missingScopes (extractScopes payload)),
          403⟩)
    ∧ (∀ sc, sc ∈ missingScopes (extractScopes payload)
        ↔ (sc ∈ REQUIRED_SCOPES ∧ sc ∉ extractScopes payload))
    ∧ verifyBearerToken jv urlOk cfg ""
        = .error (.authz ⟨"Missing bearer token", 401⟩)
    ∧ authenticateRequest jv urlOk cfg none
        = .error (.authz ⟨"Missing Authorization header", 401⟩)
    ∧ authenticateRequest jv urlOk cfg (some (.multi hl))
        = .error (.authz ⟨"Missing Authorization header", 401⟩)
    ∧ authenticateRequest jv urlOk cfg (some (.single ""))
        = .error (.authz ⟨"Missing Authorization header", 401⟩)
    ∧ authenticateRequest jv urlOk cfg (some (.single hdr))
        = .error (.authz ⟨"Authorization header must be a Bearer token", 401⟩) := by
  refine ⟨?_, ?_, ?_, rfl, rfl, rfl, ?_⟩
  · unfold verifyBearerToken
    rw [if_neg ht, hjv]
    have h1 : (if REQUIRED_SCOPES.length > 0
          then ensureRequiredScopes (extractScopes payload)
          else Except.ok ())
        = Except.error ⟨"Missing required scopes: "
            ++ String.intercalate ", " (missingScopes (extractScopes payload)),
            403⟩ := by
      rw [if_pos (by decide)]
      unfold ensureRequiredScopes
      rw [if_neg hm]
    simp only [h1]
  · intro sc
    unfold missingScopes
    simp only [List.mem_filter, decide_eq_true_eq, List.elem_iff]
  · unfold verifyBearerToken
    rw [if_pos rfl]
  · show (if hdr = ""
          then Except.error (.authz ⟨"Missing Authorization header", 401⟩)
          else
            if ¬ bearerPrefixOk (jsTrim hdr) then
              Except.error
                (.authz ⟨"Authorization header must be a Bearer token", 401⟩)
            else
              verifyBearerToken jv urlOk cfg
                (String.mk ((jsTrim hdr).data.drop 7)))
        = Except.error (.authz ⟨"Authorization header must be a Bearer token", 401⟩)
    rw [if_neg hhdr]
    simp only [hb, Bool.false_eq_true, not_false_eq_true, if_true]

/-- C2 (witness): a token granting only `openid profile` fails with a 403
naming `email`, an empty-string Authorization header fails with the 401
missing-header error, and a `Basic` header fails with the 401
must-be-Bearer error, by the theorem applied at concrete inputs. -/
theorem c2_scope_enforcement_witness :
    verifyBearerToken (fun _ => .ok { scope := some (.str "openid profile") })
      (fun _ => none) ⟨"https://issuer.example/", "http://localhost:8788"⟩ "tok"
      = .error (.authz ⟨"Missing required scopes: email", 403⟩)
    ∧ authenticateRequest (fun _ => .ok { scope := some (.str "openid profile") })
      (fun _ => none) ⟨"https://issuer.example/", "http://localhost:8788"⟩
      (some (.single ""))
      = .error (.authz ⟨"Missing Authorization header", 401⟩)
    ∧ authenticateRequest (fun _ => .ok { scope := some (.str "openid profile") })
      (fun _ => none) ⟨"https://issuer.example/", "http://localhost:8788"⟩
      (some (.single "Basic abc"))
      = .error (.authz ⟨"Authorization header must be a Bearer token", 401⟩) :=
  ⟨(c2_scope_enforcement (fun _ => .ok { scope := some (.str "openid profile") })
      (fun _ => none) ⟨"https://issuer.example/", "http://localhost:8788"⟩ "tok"
      { scope := some (.str "openid profile") } rfl (by decide) (by decide)
      "Basic abc" [] (by decide) (by decide)).1,
   (c2_scope_enforcement (fun _ => .ok { scope := some (.str "openid profile") })
      (fun _ => none) ⟨"https://issuer.example/", "http://localhost:8788"⟩ "tok"
      { scope := some (.str "openid profile") } rfl (by decide) (by decide)
      "Basic abc" [] (by decide) (by decide)).2.2.2.2.2.1,
   (c2_scope_enforcement (fun _ => .ok { scope := some (.str "openid profile") })
      (fun _ => none) ⟨"https://issuer.example/", "http://localhost:8788"⟩ "tok"
      { scope := some (.str "openid profile") } rfl (by decide) (by decide)
      "Basic abc" [] (by decide) (by decide)).2.2.2.2.2.2⟩

/-! ## C4 — ISO-week resolution -/

theorem weekRe_length {l : List Char} {p : Int × Int}
    (h : weekRe l = some p) : l.length = 8 := by
  unfold weekRe at h
  split at h
  · rfl
  · exact nomatch h

theorem exactRe_eq_none_of_length {l : List Char} (h : l.length ≠ 10) :
    exactRe l = none := by
  unfold exactRe
  split
  · exact absurd rfl h
  · rfl

/-- Shifting the day argument of `daysFromCivil` is additive: the day
offsets linearly from the first of the month. -/
theorem daysFromCivil_day (y m d : Int) :
    daysFromCivil y m d = daysFromCivil y m 1 + (d - 1) := by
  simp only [daysFromCivil]
  ring

/-- C4 (counterexample): the claim's formula anchors at "January 4 of that
year", but `Date.UTC` maps integer year arguments 0–99 to 1900–1999
(`MakeFullYear`), and the regex accepts 4-digit years `0000`–`0099`.  For
`"0099-W05"` the code anchors at January 4, **1999**, not at January 4 of
the proleptic year 99, so the literal-year anchor formula gives a different
day. -/
theorem c4_counterexample :
    parseIsoDate (fun _ => none) (some "0099-W05")
      ≠ some (specIsoWeekMondayMs 99 5) := by
  decide

/-- C4 (amended): every string whose trimmed form matches `YYYY-Www`
resolves through the week branch to the Jan-4-anchor formula *with
`Date.UTC`'s `MakeFullYear` year mapping* — January 4 of the mapped year
(years 0–99 denote 1900–1999; other years are themselves) in UTC, its
weekday with Sunday as 7, plus `(1 - weekday) + (week - 1)·7` days; in
particular `"2024-W34"` resolves to the same day as `"2024-08-19"`, so a
row with `snapshot_date = "2024-W34"` passes a `snapshotDate` filter of
`"2024-08-19"` (the Monday the formula computes for week 34 of 2024). -/
theorem c4_iso_week_resolution (fb : String → Option Int) (s : String)
    (y w : Int) (h : weekRe (jsTrim s).data = some (y, w)) :
    parseIsoDate fb (some s) = some (isoWeekMondayMs y w)
    ∧ isoWeekMondayMs y w
        = (jan4Day y + (1 - jan4Weekday y) + (w - 1) * 7) * msPerDay
    ∧ jan4Day y = daysFromCivil (makeFullYear y) 1 4
    ∧ parseIsoDate fb (some "2024-W34") = parseIsoDate fb (some "2024-08-19")
    ∧ rowMatches fb { snapshotDate := some "2024-08-19" }
        (buildRow [("snapshot_date", "2024-W34")] "good.csv" "csv") = true := by
  have hj4 : jan4Day y = daysFromCivil (makeFullYear y) 1 4 := by
    show daysFromCivil (makeFullYear y + 0) 1 1 + 3
        = daysFromCivil (makeFullYear y) 1 4
    rw [add_zero, daysFromCivil_day (makeFullYear y) 1 4]
    norm_num
  have h8 : (jsTrim s).data.length = 8 := weekRe_length h
  have hne : jsTrim s ≠ "" := by
    intro he
    rw [he] at h
    exact nomatch h
  have hsne : s ≠ "" := by
    intro he
    rw [he] at h
    exact nomatch h
  refine ⟨?_, rfl, hj4, rfl, rfl⟩
  show (match some s with
    | none => none
    | some s =>
      if s = "" then none
      else
        let trimmed := jsTrim s
        if trimmed = "" then none
        else
          match exactRe trimmed.data with
          | some (year, month, day) =>
            some (jsDateUTCDay year (month - 1) day * msPerDay)
          | none =>
            match weekRe trimmed.data with
            | some (year, week) => some (isoWeekMondayMs year week)
            | none => fb trimmed) = some (isoWeekMondayMs y w)
  simp only [if_neg hsne, if_neg hne,
    exactRe_eq_none_of_length (by rw [h8]; decide), h]

/-- C4 (witness): the theorem applied to the concrete string `"2024-W34"`
(with an always-failing free-form parser), whose trimmed form matches the
week regex with year 2024 and week 34. -/
theorem c4_iso_week_resolution_witness :
    parseIsoDate (fun _ => none) (some "2024-W34")
      = some (isoWeekMondayMs 2024 34)
    ∧ rowMatches (fun _ => none) { snapshotDate := some "2024-08-19" }
        (buildRow [("snapshot_date", "2024-W34")] "good.csv" "csv") = true :=
  ⟨(c4_iso_week_resolution (fun _ => none) "2024-W34" 2024 34 (by decide)).1,
   (c4_iso_week_resolution (fun _ => none) "2024-W34" 2024 34 (by decide)).2.2.2.2⟩
